import Mathlib

/-!
Verification development for `flask_profiler.py` (soasme/flask-profiler).

The source file is shallowly embedded below:
* Python strings and byte strings are modelled as `List Char` (one `Char` per
  character / byte, latin-1 view of bytes).
* Python floats holding profiler times are modelled as exact rationals; the
  claims about the statistics formatter concern the choice of denominators and
  the zero guards, which the change of number representation does not affect.
* Fallible Python code (attribute access on `flask.g`, `json.loads`) is
  modelled with `Except` / `Option`.
* The log handler classes hold their mutable buffer in an explicit state value
  that each operation threads through.
-/

/-- Characters of a string literal, the `List Char` view of a Python string. -/
def strL (s : String) : List Char := s.data

/-- Opening curly brace character (written via its code point). -/
def lbraceC : Char := Char.ofNat 123

/-- Closing curly brace character (written via its code point). -/
def rbraceC : Char := Char.ofNat 125

mutual
/-- JSON values as handled by Python's `json` module: object fields keep their
order (Python dicts preserve insertion order). Arrays and objects use the
mutual list types `JList` / `JFields` below. -/
inductive JVal where
  | jnull : JVal
  | jbool (b : Bool) : JVal
  | jnum (n : Int) : JVal
  | jstr (s : List Char) : JVal
  | jarr (xs : JList) : JVal
  | jobj (fields : JFields) : JVal

/-- A list of JSON values (elements of a JSON array). -/
inductive JList where
  | nil : JList
  | cons (v : JVal) (rest : JList) : JList

/-- An ordered list of key/value fields of a JSON object. -/
inductive JFields where
  | nil : JFields
  | cons (k : List Char) (v : JVal) (rest : JFields) : JFields
end

/-- Append two JSON field lists (used for key insertion at the end, the way a
new key lands at the end of a Python dict). -/
def JFields.append : JFields → JFields → JFields
  | .nil, gs => gs
  | .cons k v rest, gs => .cons k v (rest.append gs)

/-- String escaping done by `json.dumps` for the characters that occur in this
system's data (no non-ASCII, so no unicode escapes arise). -/
def escapeStr : List Char → List Char
  | [] => []
  | c :: rest =>
    if c = '"' then '\\' :: '"' :: escapeStr rest
    else if c = '\\' then '\\' :: '\\' :: escapeStr rest
    else if c = '\n' then '\\' :: 'n' :: escapeStr rest
    else if c = '\t' then '\\' :: 't' :: escapeStr rest
    else if c = '\r' then '\\' :: 'r' :: escapeStr rest
    else c :: escapeStr rest

/-- Comma-join a list of already serialized pieces. -/
def joinComma : List (List Char) → List Char
  | [] => []
  | [x] => x
  | x :: xs => x ++ ',' :: joinComma xs

mutual
/-- Serialization of a JSON value as `flask.jsonify` produces it with default
configuration: `json.dumps` with the compact separators `(",", ":")` that
Flask passes when pretty-printing is off. -/
def dumpsVal : JVal → List Char
  | .jnull => strL "null"
  | .jbool true => strL "true"
  | .jbool false => strL "false"
  | .jnum n => strL (toString n)
  | .jstr s => '"' :: escapeStr s ++ ['"']
  | .jarr xs => '[' :: dumpsArr xs ++ [']']
  | .jobj fields => lbraceC :: dumpsObj fields ++ [rbraceC]

/-- Comma-separated serialization of the elements of a JSON array. -/
def dumpsArr : JList → List Char
  | .nil => []
  | .cons v .nil => dumpsVal v
  | .cons v rest => dumpsVal v ++ ',' :: dumpsArr rest

/-- Comma-separated serialization of the fields of a JSON object. -/
def dumpsObj : JFields → List Char
  | .nil => []
  | .cons k v .nil => '"' :: escapeStr k ++ '"' :: ':' :: dumpsVal v
  | .cons k v rest =>
      ('"' :: escapeStr k ++ '"' :: ':' :: dumpsVal v) ++ ',' :: dumpsObj rest
end

/-- Build a `JList` from an ordinary list of values. -/
def JList.ofList : List JVal → JList
  | [] => .nil
  | v :: vs => .cons v (JList.ofList vs)

/-- Build a `JFields` from an ordinary list of key/value pairs. -/
def JFields.ofList : List (List Char × JVal) → JFields
  | [] => .nil
  | (k, v) :: kvs => .cons k v (JFields.ofList kvs)

/-- A JSON array written with list-literal syntax. -/
def jarrL (xs : List JVal) : JVal := .jarr (JList.ofList xs)

/-- A JSON object written with list-literal syntax. -/
def jobjL (kvs : List (List Char × JVal)) : JVal := .jobj (JFields.ofList kvs)

/-- Membership test of a key in the fields of a JSON object
(Python's `jsonify_key not in data` negated). -/
def objHasKey : JFields → List Char → Bool
  | .nil, _ => false
  | .cons k _ rest, key => if k = key then true else objHasKey rest key

/-- Whitespace as skipped by the JSON grammar. -/
def isJsonWs (c : Char) : Bool :=
  c = ' ' || c = '\n' || c = '\t' || c = '\r'

/-- Drop leading JSON whitespace. -/
def skipWs (s : List Char) : List Char := s.dropWhile isJsonWs

/-- Decoding of a backslash escape inside a JSON string literal (the escapes
this system's data can contain; `\uXXXX` escapes are outside the subset). -/
def escCharParse (e : Char) : Option Char :=
  if e = '"' then some '"'
  else if e = '\\' then some '\\'
  else if e = '/' then some '/'
  else if e = 'n' then some '\n'
  else if e = 't' then some '\t'
  else if e = 'r' then some '\r'
  else none

/-- Parse the characters of a JSON string literal after the opening quote,
returning the decoded characters and the input after the closing quote. -/
def parseStrChars : Nat → List Char → Option (List Char × List Char)
  | _, [] => none
  | 0, _ :: _ => none
  | fuel + 1, c :: rest =>
    if c = '"' then some ([], rest)
    else if c = '\\' then
      match rest with
      | [] => none
      | e :: rest2 =>
        match escCharParse e with
        | none => none
        | some ec => (parseStrChars fuel rest2).map fun p => (ec :: p.1, p.2)
    else (parseStrChars fuel rest).map fun p => (c :: p.1, p.2)

/-- Parse a JSON integer (optional minus sign and digits). Fraction and
exponent forms are outside the subset this system's data uses and are
rejected. -/
def parseNumber (s : List Char) : Option (JVal × List Char) :=
  let neg : Bool := match s with | c :: _ => c = '-' | [] => false
  let s1 := if neg then s.drop 1 else s
  let ds := s1.takeWhile Char.isDigit
  let rest := s1.dropWhile Char.isDigit
  if ds = [] then none
  else
    let n : Nat := ds.foldl (fun a c => a * 10 + (c.toNat - 48)) 0
    let v : Int := if neg then -(n : Int) else (n : Int)
    match rest with
    | c :: _ => if c = '.' || c = 'e' || c = 'E' then none else some (.jnum v, rest)
    | [] => some (.jnum v, rest)

mutual
/-- Fuel-bounded recursive-descent parser for JSON values, modelling Python's
`json.loads` on the subset of JSON this system's request/response bodies use. -/
def parseVal : Nat → List Char → Option (JVal × List Char)
  | 0, _ => none
  | fuel + 1, s =>
    match skipWs s with
    | [] => none
    | c :: rest =>
      if c = '"' then
        (parseStrChars rest.length rest).map fun p => (JVal.jstr p.1, p.2)
      else if c = lbraceC then
        match skipWs rest with
        | c2 :: r2 =>
          if c2 = rbraceC then some (.jobj .nil, r2)
          else parseObjItems fuel (c2 :: r2) []
        | [] => none
      else if c = '[' then
        match skipWs rest with
        | c2 :: r2 =>
          if c2 = ']' then some (.jarr .nil, r2)
          else parseArrItems fuel (c2 :: r2) []
        | [] => none
      else if (strL "true").isPrefixOf (c :: rest) then some (.jbool true, (c :: rest).drop 4)
      else if (strL "false").isPrefixOf (c :: rest) then some (.jbool false, (c :: rest).drop 5)
      else if (strL "null").isPrefixOf (c :: rest) then some (.jnull, (c :: rest).drop 4)
      else parseNumber (c :: rest)

/-- Parse the comma-separated items of a non-empty JSON array. -/
def parseArrItems : Nat → List Char → List JVal → Option (JVal × List Char)
  | 0, _, _ => none
  | fuel + 1, s, acc =>
    match parseVal fuel s with
    | none => none
    | some (v, rest) =>
      match skipWs rest with
      | c :: r2 =>
        if c = ',' then parseArrItems fuel r2 (acc ++ [v])
        else if c = ']' then some (jarrL (acc ++ [v]), r2)
        else none
      | [] => none

/-- Parse the comma-separated fields of a non-empty JSON object. -/
def parseObjItems : Nat → List Char → List (List Char × JVal) → Option (JVal × List Char)
  | 0, _, _ => none
  | fuel + 1, s, acc =>
    match skipWs s with
    | [] => none
    | c :: rest =>
      if c = '"' then
        match parseStrChars rest.length rest with
        | none => none
        | some (key, r1) =>
          match skipWs r1 with
          | c2 :: r2 =>
            if c2 = ':' then
              match parseVal fuel r2 with
              | none => none
              | some (v, r3) =>
                match skipWs r3 with
                | c3 :: r4 =>
                  if c3 = ',' then parseObjItems fuel r4 (acc ++ [(key, v)])
                  else if c3 = rbraceC then some (jobjL (acc ++ [(key, v)]), r4)
                  else none
                | [] => none
            else none
          | [] => none
      else none
end

/-- Python's `json.loads` on a whole document: parse one value and require
only whitespace to remain (trailing data is an error). The fuel bound is
generous enough for any input of the given length. -/
def parseJson (s : List Char) : Option JVal :=
  match parseVal (2 * s.length + 4) s with
  | some (v, rest) => if skipWs rest = [] then some v else none
  | none => none

/-- Fuel-bounded scan implementing Python's `str.replace(old, new)` with its
default count: scan left to right and replace every non-overlapping occurrence
of `pat`. The fuel is instantiated with the length of the scanned string, which
always suffices. -/
def replaceAllFuel (pat new : List Char) : Nat → List Char → List Char
  | _, [] => []
  | 0, s => s
  | fuel + 1, c :: rest =>
    if pat ≠ [] ∧ pat.isPrefixOf (c :: rest) then
      new ++ replaceAllFuel pat new fuel (rest.drop (pat.length - 1))
    else c :: replaceAllFuel pat new fuel rest

/-- Python's `s.replace(pat, new)` for a non-empty `pat`. -/
def replaceAll (pat new s : List Char) : List Char :=
  replaceAllFuel pat new s.length s

/-- Fuel-bounded count of the non-overlapping occurrences of `pat` found by
the same left-to-right scan that `replaceAllFuel` performs. -/
def countOccFuel (pat : List Char) : Nat → List Char → Nat
  | _, [] => 0
  | 0, _ => 0
  | fuel + 1, c :: rest =>
    if pat ≠ [] ∧ pat.isPrefixOf (c :: rest) then
      1 + countOccFuel pat fuel (rest.drop (pat.length - 1))
    else countOccFuel pat fuel rest

/-- Number of non-overlapping occurrences of `pat` in `s`. -/
def countOcc (pat s : List Char) : Nat := countOccFuel pat s.length s

/-- A character encoding as the response object exposes it (`resp.charset`):
an encode function from text to bytes and a decode function back. Bytes are
modelled as `List Char` (one character per byte). -/
structure Charset where
  enc : List Char → List Char
  dec : List Char → List Char

/-- The identity charset: text whose bytes are its characters (the latin-1
view; adequate for the ASCII data the claims use). -/
def idCharset : Charset := ⟨fun l => l, fun l => l⟩

/-- The outgoing Flask response as the after-request hooks see it: status
code, the Content-Type header, the declared charset, the body bytes
(`resp.data` / `resp.response`), and the Content-Length header. -/
structure HttpResponse where
  status_code : Nat
  content_type : List Char
  charset : Charset
  data : List Char
  content_length : Nat

/-- Exceptions the embedded Python code can raise. -/
inductive PyError where
  | attributeError (name : String)
  | jsonDecodeError
deriving DecidableEq

/-- The state of a `logging.handlers.BufferingHandler`: its record buffer.
The record type is a parameter; the handler formats records with the
configured formatter, modelled as a function argument. -/
structure BufHandler (α : Type) where
  buffer : List α

/-- Both handler subclasses override `shouldFlush` to always return `False`,
so the buffering handler never auto-flushes. -/
def shouldFlush {α : Type} (_h : BufHandler α) (_r : α) : Bool := false

/-- `logging.handlers.BufferingHandler.emit`: append the record to the buffer
(followed by a `shouldFlush` check that is always false here). -/
def emit {α : Type} (h : BufHandler α) (r : α) : BufHandler α :=
  ⟨h.buffer ++ [r]⟩

/-- `JSONifyLogHandler.flush`: format every buffered record with the
configured formatter, clear the buffer, and return the formatted lines. -/
def JSONifyLogHandler.flush {α : Type} (fmt : α → List Char) (h : BufHandler α) :
    List (List Char) × BufHandler α :=
  (h.buffer.map fmt, ⟨[]⟩)

/-- The fixed opening tag of the styled `div` block that
`HTMLBodyLogHandler.flush` renders. -/
def htmlDivOpen : List Char :=
  strL "<div style=\"font-size:0.7rem; background: white; font-family: Monaco, Consolas, Menlo, Courier, monospace; z-index: 10000; padding: 1rem;\">"

/-- One rendered log line inside the `div` block: `'<p>%s</p>\n' % line`. -/
def pTag (line : List Char) : List Char :=
  strL "<p>" ++ line ++ strL "</p>\n"

/-- `HTMLBodyLogHandler.flush`: render every buffered record (formatted with
the configured formatter) as a `<p>` line inside the fixed styled `div`,
clear the buffer, and return the single HTML fragment. -/
def HTMLBodyLogHandler.flush {α : Type} (fmt : α → List Char) (h : BufHandler α) :
    List Char × BufHandler α :=
  (htmlDivOpen ++ (h.buffer.map fun r => pTag (fmt r)).flatten ++ strL "</div>", ⟨[]⟩)

/-- The HTML fragment `HTMLBodyLogHandler.flush` returns for an empty buffer:
the styled `div` with no content. -/
def emptyHtmlRendering : List Char := htmlDivOpen ++ strL "</div>"

/-- The placeholder comment `'<!-- %s -->' % placeholder` that the HTML
injector replaces. -/
def commentToken (placeholder : List Char) : List Char :=
  strL "<!-- " ++ placeholder ++ strL " -->"

/-- `render_logs_to_html_body` (the HTML injector's after-request hook): when
the status is 200 and the Content-Type starts with `text/html`, decode the
body with the declared charset, flush the HTML log handler, substitute the
rendered fragment for the placeholder comment, re-encode, and overwrite body
and Content-Length; otherwise leave handler and response untouched. -/
def render_logs_to_html_body {α : Type} (placeholder : List Char) (fmt : α → List Char)
    (st : BufHandler α) (resp : HttpResponse) : BufHandler α × HttpResponse :=
  if resp.status_code = 200 ∧ (strL "text/html").isPrefixOf resp.content_type = true then
    let html := resp.charset.dec resp.data
    let flushed := HTMLBodyLogHandler.flush fmt st
    let html2 := replaceAll (commentToken placeholder) flushed.1 html
    let body := resp.charset.enc html2
    (flushed.2, { resp with data := body, content_length := body.length })
  else
    (st, resp)

/-- The whole body produced by `flask.jsonify(value)` with default
configuration: the compact serialization followed by the newline Flask
appends to every jsonified response. -/
def jsonify_body (v : JVal) : List Char := dumpsVal v ++ ['\n']

/-- The conditional insertion step of `merge_into_jsonified_output`:
`if isinstance(data, dict) and jsonify_key and jsonify_key not in data:
data[jsonify_key] = handler.flush()`. Returns the (possibly extended) value
together with the handler state after the step. -/
def merge_value {α : Type} (jsonify_key : List Char) (fmt : α → List Char)
    (st : BufHandler α) : JVal → JVal × BufHandler α
  | .jobj fields =>
    if jsonify_key ≠ [] ∧ objHasKey fields jsonify_key = false then
      let flushed := JSONifyLogHandler.flush fmt st
      (.jobj (fields.append (.cons jsonify_key (jarrL (flushed.1.map JVal.jstr)) .nil)),
        flushed.2)
    else (.jobj fields, st)
  | v => (v, st)

/-- `merge_into_jsonified_output` (the JSON injector's after-request hook):
when the status is 200 and the Content-Type starts with `application/json`,
parse the body as JSON (a parse failure propagates, as `json.loads` raises);
if the value is a dict, the configured key is truthy (non-empty) and not yet
present, flush the JSON log handler and insert the flushed lines under the
key at the end; in every parsed case re-serialize the value with
`flask.jsonify` (compact separators plus a trailing newline) as the new body
and set Content-Length to the new body's length. -/
def merge_into_jsonified_output {α : Type} (jsonify_key : List Char) (fmt : α → List Char)
    (st : BufHandler α) (resp : HttpResponse) :
    Except PyError (BufHandler α × HttpResponse) :=
  if resp.status_code = 200 ∧ (strL "application/json").isPrefixOf resp.content_type = true then
    match parseJson resp.data with
    | none => .error .jsonDecodeError
    | some data =>
      let merged := merge_value jsonify_key fmt st data
      let body := jsonify_body merged.1
      .ok (merged.2, { resp with data := body, content_length := body.length })
  else
    .ok (st, resp)

/-- A profiled function's identity, the `(file, line, name)` triple that keys
`pstats` entries. -/
structure FuncKey where
  file : String
  line : Nat
  name : String
deriving DecidableEq

/-- One `pstats` entry `stats.stats[func] = (cc, nc, tt, ct, callers)`, laid
out as `cProfile.Profile.snapshot_stats` produces it: `cc` is the primitive
(non-recursive) call count `callcount - reccallcount`, `nc` the total call
count `callcount`, `tt` the exclusive time in seconds, `ct` the cumulative
time in seconds. Times are modelled as exact rationals. -/
structure StatEntry where
  cc : Nat
  nc : Nat
  tt : ℚ
  ct : ℚ
deriving DecidableEq

/-- The `ncalls` cell of a formatted row: a bare count, or the
`"%d/%d"`-formatted string used when a function was entered recursively. -/
inductive NCalls where
  | num (n : Nat)
  | str (s : String)
deriving DecidableEq

/-- One row of `get_func_calls_from_stats`'s output. -/
structure CallStat where
  ncalls : NCalls
  tottime : ℚ
  percall : ℚ
  cumtime : ℚ
  percall_cum : ℚ
  filename : String
deriving DecidableEq

/-- `pstats.func_std_string`: render a function key as `"file:line(name)"`,
with the special case for built-in functions recorded under the pseudo-file
`"~"` at line 0. -/
def func_std_string (f : FuncKey) : String :=
  if f.file = "~" ∧ f.line = 0 then
    if f.name.startsWith "<" ∧ f.name.endsWith ">" then
      String.mk (lbraceC :: ((f.name.data.drop 1).dropLast ++ [rbraceC]))
    else f.name
  else f.file ++ ":" ++ toString f.line ++ "(" ++ f.name ++ ")"

/-- The loop body of `get_func_calls_from_stats` for one `(func, info)` pair:
`ncalls` is `"%d/%d" % (info[1], info[0])` when the two counts differ and the
bare `info[1]` otherwise; times are converted to milliseconds; the divisions
for `percall` (by `info[1]`) and `percall_cum` (by `info[0]`) are guarded by
Python truthiness checks of the denominators. -/
def mkStat (func : FuncKey) (info : StatEntry) : CallStat :=
  { ncalls :=
      if info.cc ≠ info.nc then .str (toString info.nc ++ "/" ++ toString info.cc)
      else .num info.nc
    tottime := info.tt * 1000
    percall := if info.nc ≠ 0 then info.tt * 1000 / (info.nc : ℚ) else 0
    cumtime := info.ct * 1000
    percall_cum := if info.cc ≠ 0 then info.ct * 1000 / (info.cc : ℚ) else 0
    filename := func_std_string func }

/-- `get_func_calls_from_stats`: one `CallStat` per profiled function, in the
order of `stats.sort_stats(1).fcn_list` (the sorting itself happens inside
`pstats`; the input here is that ordered list of `(func, info)` pairs, each
`info` looked up in `stats.stats`). An empty input yields an empty output,
which also covers the `if not stats` guard of the source. -/
def get_func_calls_from_stats (stats : List (FuncKey × StatEntry)) : List CallStat :=
  stats.map fun p => mkStat p.1 p.2

/-- The capability bundle a profiler adapter returns to the composition root:
which logger channel it logs on and which request hooks it provides. -/
structure AdapterBundle where
  logger_name : Option String
  has_before_request : Bool
  has_after_request : Bool
deriving DecidableEq

/-- The bundle built by `profile_function()`: a logger named
`flask.profiler.function` plus both request hooks. -/
def profile_function : AdapterBundle :=
  { logger_name := some "flask.profiler.function"
    has_before_request := true
    has_after_request := true }

/-- The bundle built by `profile_sqlalchemy()`: a logger named
`flask.profiler.sqlalchemy_queries` plus only the after-request hook. -/
def profile_sqlalchemy : AdapterBundle :=
  { logger_name := some "flask.profiler.sqlalchemy_queries"
    has_before_request := false
    has_after_request := true }

/-- The slice of `flask.g` this system touches: the attribute
`flask_profiler_function` set by `enable_function_profiler`, holding the
request's profiler (represented by the statistics it has accumulated, in
`fcn_list` order). `none` models the attribute never having been set. -/
structure ProfilerG where
  flask_profiler_function : Option (List (FuncKey × StatEntry))

/-- `enable_function_profiler` (the function adapter's before-request hook):
store a fresh enabled profiler on `flask.g`. -/
def enable_function_profiler (_g : ProfilerG) : ProfilerG :=
  { flask_profiler_function := some [] }

/-- `disable_function_profiler` (the function adapter's after-request hook):
reading `g.flask_profiler_function` raises `AttributeError` when the
before-request hook never set it; otherwise the accumulated statistics are
formatted and logged (the emitted rows are returned here) and the response is
passed through unmodified. -/
def disable_function_profiler {ρ : Type} (g : ProfilerG) (resp : ρ) :
    Except PyError (ρ × List CallStat) :=
  match g.flask_profiler_function with
  | none => .error (.attributeError "flask_profiler_function")
  | some stats => .ok (resp, get_func_calls_from_stats stats)

/-- A process-wide logger as `logging.getLogger(name)` yields it: its channel
name and the handlers attached to it (handlers are identified by tokens). -/
structure LoggerState where
  name : String
  handlers : List Nat
deriving DecidableEq

/-- The request hooks registered on the Flask app, in registration order
(hooks are identified by tokens). -/
structure AppState where
  before_request_hooks : List Nat
  after_request_hooks : List Nat
deriving DecidableEq

/-- What `add_profiler` consumes: the adapter's dict of optional
`before_request` / `after_request` hooks and optional logger. -/
structure ProfilerCfg where
  logger : Option LoggerState
  before_request : Option Nat
  after_request : Option Nat
deriving DecidableEq

/-- What `add_log_handler` consumes: the injector's dict holding its logging
handler and its optional request hooks. -/
structure LogHandlerCfg where
  handler : Nat
  before_request : Option Nat
  after_request : Option Nat
deriving DecidableEq

/-- The state of a `FlaskProfiler` instance together with its app:
`self.loggers`, `self.profilers` (kept as their hook/logger summaries),
`self.log_handlers`, and the app's registered hooks. -/
structure FlaskProfilerState where
  app : AppState
  loggers : List LoggerState
  profilers : List ProfilerCfg
  log_handlers : List Nat
deriving DecidableEq

/-- `FlaskProfiler.add_profiler`: record the profiler, register whichever of
its hooks are present, and remember its logger (when it has one) in
`self.loggers`. -/
def add_profiler (st : FlaskProfilerState) (p : ProfilerCfg) : FlaskProfilerState :=
  { st with
    profilers := st.profilers ++ [p]
    app :=
      { before_request_hooks := st.app.before_request_hooks ++ p.before_request.toList
        after_request_hooks := st.app.after_request_hooks ++ p.after_request.toList }
    loggers := st.loggers ++ p.logger.toList }

/-- One iteration of the `for logger in self.loggers` loop of
`add_log_handler`: attach the logging handler to this logger
(`logger.addHandler`) and register the handler's request hooks when present. -/
def add_log_handler_step (h : LogHandlerCfg) (acc : FlaskProfilerState)
    (lg : LoggerState) : FlaskProfilerState :=
  { acc with
    loggers := acc.loggers ++ [{ lg with handlers := lg.handlers ++ [h.handler] }]
    app :=
      { before_request_hooks := acc.app.before_request_hooks ++ h.before_request.toList
        after_request_hooks := acc.app.after_request_hooks ++ h.after_request.toList } }

/-- `FlaskProfiler.add_log_handler`: record the handler, then loop over
`self.loggers`, attaching the logging handler to each logger and registering
the handler's request hooks once per iteration. -/
def add_log_handler (st : FlaskProfilerState) (h : LogHandlerCfg) : FlaskProfilerState :=
  st.loggers.foldl (add_log_handler_step h)
    { st with log_handlers := st.log_handlers ++ [h.handler], loggers := [] }

theorem countOccFuel_zero_replace (pat new : List Char) :
    ∀ (fuel : Nat) (s : List Char), s.length ≤ fuel →
      countOccFuel pat fuel s = 0 → replaceAllFuel pat new fuel s = s := by
  intro fuel
  induction fuel with
  | zero =>
    intro s hlen _
    have hs : s = [] := List.length_eq_zero.mp (Nat.le_zero.mp hlen)
    subst hs
    rfl
  | succ fuel ih =>
    intro s hlen hcnt
    match s with
    | [] => rfl
    | c :: rest =>
      by_cases hc : pat ≠ [] ∧ pat.isPrefixOf (c :: rest) = true
      · simp only [countOccFuel, if_pos hc] at hcnt
        omega
      · simp only [countOccFuel, if_neg hc] at hcnt
        simp only [replaceAllFuel, if_neg hc]
        have hlen2 : rest.length ≤ fuel := by
          simpa using hlen
        rw [ih rest hlen2 hcnt]

theorem countOccFuel_one_replace (pat new : List Char) :
    ∀ (fuel : Nat) (s : List Char), s.length ≤ fuel →
      countOccFuel pat fuel s = 1 →
      ∃ pre suf, s = pre ++ pat ++ suf ∧
        replaceAllFuel pat new fuel s = pre ++ new ++ suf := by
  intro fuel
  induction fuel with
  | zero =>
    intro s hlen hcnt
    have hs : s = [] := List.length_eq_zero.mp (Nat.le_zero.mp hlen)
    subst hs
    simp [countOccFuel] at hcnt
  | succ fuel ih =>
    intro s hlen hcnt
    match s with
    | [] => simp [countOccFuel] at hcnt
    | c :: rest =>
      by_cases hc : pat ≠ [] ∧ pat.isPrefixOf (c :: rest) = true
      · obtain ⟨hpne, hpref⟩ := hc
        obtain ⟨t, ht⟩ := (List.isPrefixOf_iff_prefix.mp hpref)
        match pat, hpne with
        | p0 :: ptl, _ =>
          have hc0 : p0 = c := by
            have := congrArg (fun l => l.head?) ht
            simp at this
            exact this
          have htl : ptl ++ t = rest := by
            have := congrArg (fun l => l.tail) ht
            simp at this
            exact this
          have hdrop : rest.drop ((p0 :: ptl).length - 1) = t := by
            rw [← htl]
            simp
          have hc' : (p0 :: ptl) ≠ [] ∧ (p0 :: ptl).isPrefixOf (c :: rest) = true :=
            ⟨by simp, hpref⟩
          simp only [countOccFuel, if_pos hc'] at hcnt
          have hcnt0 : countOccFuel (p0 :: ptl) fuel (rest.drop ((p0 :: ptl).length - 1)) = 0 := by
            omega
          have hlt : (rest.drop ((p0 :: ptl).length - 1)).length ≤ fuel := by
            have h1 : (rest.drop ((p0 :: ptl).length - 1)).length ≤ rest.length := by
              simp
            have h2 : rest.length ≤ fuel := by
              simpa using hlen
            omega
          refine ⟨[], t, ?_, ?_⟩
          · simpa using ht.symm
          · simp only [replaceAllFuel, if_pos hc']
            rw [hdrop] at hcnt0 ⊢
            rw [countOccFuel_zero_replace (p0 :: ptl) new fuel t (hdrop ▸ hlt) hcnt0]
            simp
      · simp only [countOccFuel, if_neg hc] at hcnt
        have hlen2 : rest.length ≤ fuel := by
          simpa using hlen
        obtain ⟨pre, suf, hsplit, hrepl⟩ := ih rest hlen2 hcnt
        refine ⟨c :: pre, suf, ?_, ?_⟩
        · simp [hsplit]
        · simp only [replaceAllFuel, if_neg hc]
          simp [hrepl]

theorem countOcc_one_replaceAll (pat new s : List Char) (h1 : countOcc pat s = 1) :
    ∃ pre suf, s = pre ++ pat ++ suf ∧ replaceAll pat new s = pre ++ new ++ suf :=
  countOccFuel_one_replace pat new s.length s (Nat.le_refl _) h1

/-- C1: for both log-buffer handlers (JSON and HTML variants), `flush`
formats every buffered record with the configured formatter, clears the
buffer, and returns the formatted content; hence flushing an empty buffer
returns empty content (the empty list, or the empty-content `div`
rendering), a second consecutive flush with no intervening appends returns
empty content again, and any flush drains the buffer. -/
theorem flush_formats_clears_and_empty_flush_is_empty {α : Type}
    (fmt : α → List Char) (buf : List α) :
    JSONifyLogHandler.flush fmt ⟨buf⟩ = (buf.map fmt, ⟨[]⟩)
  ∧ JSONifyLogHandler.flush fmt (⟨[]⟩ : BufHandler α) = ([], ⟨[]⟩)
  ∧ JSONifyLogHandler.flush fmt (JSONifyLogHandler.flush fmt ⟨buf⟩).2 = ([], ⟨[]⟩)
  ∧ HTMLBodyLogHandler.flush fmt ⟨buf⟩
      = (htmlDivOpen ++ (buf.map fun r => pTag (fmt r)).flatten ++ strL "</div>", ⟨[]⟩)
  ∧ HTMLBodyLogHandler.flush fmt (⟨[]⟩ : BufHandler α) = (emptyHtmlRendering, ⟨[]⟩)
  ∧ HTMLBodyLogHandler.flush fmt (HTMLBodyLogHandler.flush fmt ⟨buf⟩).2
      = (emptyHtmlRendering, ⟨[]⟩) := by
  refine ⟨rfl, rfl, rfl, rfl, ?_, ?_⟩ <;>
    simp [HTMLBodyLogHandler.flush, emptyHtmlRendering]

/-- C5: for every response whose status code is not 200 or whose content
type does not start with `text/html`, the HTML injector leaves the handler
state untouched and returns the response unchanged (body byte-identical,
headers unchanged). -/
theorem render_logs_noop_on_nonmatching {α : Type} (placeholder : List Char)
    (fmt : α → List Char) (st : BufHandler α) (resp : HttpResponse)
    (h : ¬ (resp.status_code = 200 ∧ (strL "text/html").isPrefixOf resp.content_type = true)) :
    render_logs_to_html_body placeholder fmt st resp = (st, resp) := by
  rw [render_logs_to_html_body, if_neg h]

/-- A 404 response with an HTML body (for evaluating the HTML injector on a
non-200 status). -/
def resp404 : HttpResponse :=
  { status_code := 404
    content_type := strL "text/html"
    charset := idCharset
    data := strL "<html><!-- X --></html>"
    content_length := 23 }

/-- A 200 response with content type `application/json` (for evaluating the
HTML injector on a non-HTML content type). -/
def respJsonCt : HttpResponse :=
  { status_code := 200
    content_type := strL "application/json"
    charset := idCharset
    data := strL "\x7b\x7d"
    content_length := 2 }

theorem render_logs_noop_on_nonmatching_witness :
    render_logs_to_html_body (strL "X") (fun r : List Char => r) ⟨[strL "a"]⟩ resp404
      = (⟨[strL "a"]⟩, resp404)
  ∧ render_logs_to_html_body (strL "X") (fun r : List Char => r) ⟨[strL "a"]⟩ respJsonCt
      = (⟨[strL "a"]⟩, respJsonCt) :=
  ⟨render_logs_noop_on_nonmatching _ _ _ _ (by decide),
   render_logs_noop_on_nonmatching _ _ _ _ (by decide)⟩

/-- C8: when the function adapter's after-request hook runs in a request
context where the before-request hook never stored a profiler on `flask.g`,
it fails with the `AttributeError` precondition error instead of returning
normally or silently skipping. -/
theorem disable_without_start_fails {ρ : Type} (resp : ρ) :
    disable_function_profiler { flask_profiler_function := none } resp
      = Except.error (PyError.attributeError "flask_profiler_function") := rfl

/-- C9 counterexample: the adapters' logger channels are not named
`profiler.function` and `profiler.sqlalchemy_queries`; both names carry the
`flask.` prefix. -/
theorem adapter_logger_names_cex :
    profile_function.logger_name ≠ some "profiler.function"
  ∧ profile_sqlalchemy.logger_name ≠ some "profiler.sqlalchemy_queries" := by
  constructor <;> simp [profile_function, profile_sqlalchemy]

/-- C9 (amended): the two profiling adapters emit their log lines on logger
channels named exactly `flask.profiler.function` (function-call adapter) and
`flask.profiler.sqlalchemy_queries` (ORM-query adapter). -/
theorem adapter_logger_names :
    profile_function.logger_name = some "flask.profiler.function"
  ∧ profile_sqlalchemy.logger_name = some "flask.profiler.sqlalchemy_queries" :=
  ⟨rfl, rfl⟩

/-- C2: for a response with status 200, content type starting with
`text/html`, and a decoded body containing the placeholder comment exactly
once, with buffered records `r1` then `r2`, the HTML injector substitutes
the single styled `div` block (holding `<p>` lines for the two formatted
records, in order) for the first occurrence of the comment, re-encodes the
result with the response's declared charset, sets the byte-length header to
the actual length of the new body, and drains the buffer. -/
theorem render_logs_injects_html {α : Type} (placeholder : List Char) (fmt : α → List Char)
    (r1 r2 : α) (resp : HttpResponse) (page : List Char)
    (h200 : resp.status_code = 200)
    (hct : (strL "text/html").isPrefixOf resp.content_type = true)
    (hpage : resp.charset.dec resp.data = page)
    (honce : countOcc (commentToken placeholder) page = 1) :
    ∃ pre suf, page = pre ++ commentToken placeholder ++ suf ∧
      (render_logs_to_html_body placeholder fmt ⟨[r1, r2]⟩ resp).2.data
        = resp.charset.enc
            (pre ++ (htmlDivOpen ++ pTag (fmt r1) ++ pTag (fmt r2) ++ strL "</div>") ++ suf) ∧
      (render_logs_to_html_body placeholder fmt ⟨[r1, r2]⟩ resp).2.content_length
        = (render_logs_to_html_body placeholder fmt ⟨[r1, r2]⟩ resp).2.data.length ∧
      (render_logs_to_html_body placeholder fmt ⟨[r1, r2]⟩ resp).1 = ⟨[]⟩ := by
  have hcond : resp.status_code = 200 ∧ (strL "text/html").isPrefixOf resp.content_type = true :=
    ⟨h200, hct⟩
  obtain ⟨pre, suf, hsplit, hrepl⟩ :=
    countOcc_one_replaceAll (commentToken placeholder)
      (HTMLBodyLogHandler.flush fmt (⟨[r1, r2]⟩ : BufHandler α)).1 page honce
  refine ⟨pre, suf, hsplit, ?_, ?_, ?_⟩
  · simp only [render_logs_to_html_body, if_pos hcond, hpage, hrepl]
    congr 2
    simp [HTMLBodyLogHandler.flush, List.append_assoc]
  · simp only [render_logs_to_html_body, if_pos hcond]
  · simp only [render_logs_to_html_body, if_pos hcond]
    rfl

/-- A 200 HTML response whose page contains the placeholder comment for the
token `X` exactly once. -/
def respHtmlOk : HttpResponse :=
  { status_code := 200
    content_type := strL "text/html"
    charset := idCharset
    data := strL "<html><!-- X --></html>"
    content_length := 23 }

theorem render_logs_injects_html_witness :
    (respHtmlOk.status_code = 200
      ∧ (strL "text/html").isPrefixOf respHtmlOk.content_type = true
      ∧ respHtmlOk.charset.dec respHtmlOk.data = strL "<html><!-- X --></html>"
      ∧ countOcc (commentToken (strL "X")) (strL "<html><!-- X --></html>") = 1)
  ∧ (∃ pre suf, strL "<html><!-- X --></html>" = pre ++ commentToken (strL "X") ++ suf ∧
      (render_logs_to_html_body (strL "X") (fun r : List Char => r)
          ⟨[strL "a", strL "b"]⟩ respHtmlOk).2.data
        = respHtmlOk.charset.enc
            (pre ++ (htmlDivOpen ++ pTag (strL "a") ++ pTag (strL "b") ++ strL "</div>") ++ suf) ∧
      (render_logs_to_html_body (strL "X") (fun r : List Char => r)
          ⟨[strL "a", strL "b"]⟩ respHtmlOk).2.content_length
        = (render_logs_to_html_body (strL "X") (fun r : List Char => r)
            ⟨[strL "a", strL "b"]⟩ respHtmlOk).2.data.length ∧
      (render_logs_to_html_body (strL "X") (fun r : List Char => r)
          ⟨[strL "a", strL "b"]⟩ respHtmlOk).1 = ⟨[]⟩) :=
  ⟨⟨rfl, rfl, rfl, rfl⟩,
   render_logs_injects_html (strL "X") (fun r : List Char => r) (strL "a") (strL "b")
     respHtmlOk (strL "<html><!-- X --></html>") rfl rfl rfl rfl⟩

/-- C3: for a 200 `application/json` response whose body parses to the
mapping with the single key `result` bound to `1`, with configured key
`logs` and buffered records `r1` then `r2`, the JSON injector flushes the
buffer, appends the flushed lines as an array of strings under `logs` after
the pre-existing keys, re-serializes, and sets the byte-length header to the
new body's length. -/
theorem merge_jsonified_injects {α : Type} (fmt : α → List Char) (r1 r2 : α)
    (resp : HttpResponse)
    (h200 : resp.status_code = 200)
    (hct : (strL "application/json").isPrefixOf resp.content_type = true)
    (hparse : parseJson resp.data = some (jobjL [(strL "result", .jnum 1)])) :
    merge_into_jsonified_output (strL "logs") fmt ⟨[r1, r2]⟩ resp
      = .ok (⟨[]⟩,
          { resp with
            data := jsonify_body (jobjL [(strL "result", .jnum 1),
                      (strL "logs", jarrL [.jstr (fmt r1), .jstr (fmt r2)])])
            content_length := (jsonify_body (jobjL [(strL "result", .jnum 1),
                      (strL "logs", jarrL [.jstr (fmt r1), .jstr (fmt r2)])])).length }) := by
  have hcond : resp.status_code = 200
      ∧ (strL "application/json").isPrefixOf resp.content_type = true := ⟨h200, hct⟩
  simp only [merge_into_jsonified_output, if_pos hcond, hparse]
  rfl

/-- A 200 JSON response whose body is the mapping with the single key
`result` bound to `1`. -/
def respJsonOk : HttpResponse :=
  { status_code := 200
    content_type := strL "application/json"
    charset := idCharset
    data := strL "\x7b\"result\": 1\x7d"
    content_length := 13 }

theorem merge_jsonified_injects_witness :
    (respJsonOk.status_code = 200
      ∧ (strL "application/json").isPrefixOf respJsonOk.content_type = true
      ∧ parseJson respJsonOk.data = some (jobjL [(strL "result", .jnum 1)]))
  ∧ merge_into_jsonified_output (strL "logs") (fun r : List Char => r)
        ⟨[strL "x", strL "y"]⟩ respJsonOk
      = .ok (⟨[]⟩,
          { respJsonOk with
            data := jsonify_body (jobjL [(strL "result", .jnum 1),
                      (strL "logs", jarrL [.jstr (strL "x"), .jstr (strL "y")])])
            content_length := (jsonify_body (jobjL [(strL "result", .jnum 1),
                      (strL "logs", jarrL [.jstr (strL "x"), .jstr (strL "y")])])).length }) :=
  ⟨⟨rfl, rfl, rfl⟩,
   merge_jsonified_injects (fun r : List Char => r) (strL "x") (strL "y") respJsonOk rfl rfl rfl⟩

/-- C4 (amended): for a 200 `application/json` response whose body parses to
a non-mapping, or to a mapping that already contains the configured key, the
JSON injector does not flush the handler (the buffered content is retained,
not drained) and re-serializes the unchanged parsed value as the new body
(so the body is the canonical compact serialization of the same JSON value,
not necessarily byte-identical to the input), updating the byte-length
header to the new body's length. -/
theorem merge_jsonified_nonmatching {α : Type} (jsonify_key : List Char) (fmt : α → List Char)
    (st : BufHandler α) (resp : HttpResponse) (v : JVal)
    (h200 : resp.status_code = 200)
    (hct : (strL "application/json").isPrefixOf resp.content_type = true)
    (hparse : parseJson resp.data = some v)
    (hshape : (∀ fs, v ≠ .jobj fs) ∨ (∃ fs, v = .jobj fs ∧ objHasKey fs jsonify_key = true)) :
    merge_into_jsonified_output jsonify_key fmt st resp
      = .ok (st, { resp with
                   data := jsonify_body v
                   content_length := (jsonify_body v).length }) := by
  have hcond : resp.status_code = 200
      ∧ (strL "application/json").isPrefixOf resp.content_type = true := ⟨h200, hct⟩
  simp only [merge_into_jsonified_output, if_pos hcond, hparse]
  cases v with
  | jobj fs =>
    rcases hshape with hno | ⟨fs2, heq, hkey⟩
    · exact absurd rfl (hno fs)
    · have hfs : fs = fs2 := by injection heq
      subst hfs
      simp only [merge_value]
      rw [if_neg (by
        intro hcontra
        rw [hkey] at hcontra
        exact absurd hcontra.2 (by simp))]
  | jnull => rfl
  | jbool b => rfl
  | jnum n => rfl
  | jstr s => rfl
  | jarr xs => rfl

/-- A 200 JSON response whose body is a JSON array (not a mapping), written
with an interior space that compact re-serialization removes. -/
def respJsonList : HttpResponse :=
  { status_code := 200
    content_type := strL "application/json"
    charset := idCharset
    data := strL "[1, 2]"
    content_length := 6 }

/-- C4 counterexample: on a 200 `application/json` response whose body
parses to a list, with buffered line `x`, the injector returns the handler
with its buffer still holding `x` (the buffered content is not drained, the
claim says it is) and rewrites the body to the re-serialized form
`[1,2]\n`, which is not byte-identical to the input body (the claim says the
body is unchanged). -/
theorem merge_jsonified_noop_cex :
    merge_into_jsonified_output (strL "logs") (fun r : List Char => r)
        ⟨[strL "x"]⟩ respJsonList
      = .ok (⟨[strL "x"]⟩, { respJsonList with data := strL "[1,2]\n", content_length := 6 })
  ∧ strL "[1,2]\n" ≠ respJsonList.data
  ∧ [strL "x"] ≠ ([] : List (List Char)) :=
  ⟨rfl, by decide, by decide⟩

theorem merge_jsonified_nonmatching_witness :
    (respJsonList.status_code = 200
      ∧ (strL "application/json").isPrefixOf respJsonList.content_type = true
      ∧ parseJson respJsonList.data = some (jarrL [.jnum 1, .jnum 2]))
  ∧ merge_into_jsonified_output (strL "logs") (fun r : List Char => r)
        ⟨[strL "x"]⟩ respJsonList
      = .ok (⟨[strL "x"]⟩,
          { respJsonList with
            data := jsonify_body (jarrL [.jnum 1, .jnum 2])
            content_length := (jsonify_body (jarrL [.jnum 1, .jnum 2])).length }) :=
  ⟨⟨rfl, rfl, rfl⟩,
   merge_jsonified_nonmatching (strL "logs") (fun r : List Char => r) ⟨[strL "x"]⟩
     respJsonList (jarrL [.jnum 1, .jnum 2]) rfl rfl rfl
     (Or.inl fun _ h => JVal.noConfusion h)⟩

/-- A sample profiled function key. -/
def exFunc : FuncKey := { file := "app.py", line := 10, name := "f" }

/-- A sample recursive entry: 2 primitive calls, 5 total calls, 10 s
exclusive time, 20 s cumulative time. -/
def exEntry : StatEntry := { cc := 2, nc := 5, tt := 10, ct := 20 }

/-- C6 counterexample: for the entry with primitive-call count 2 and
total-call count 5, the formatter yields `tottime = 10000` ms and
`percall = 2000 = tottime / total_calls`, not `tottime / primitive_calls
= 10000 / 2`; likewise `percall_cum = 10000 = cumtime / primitive_calls`,
not `cumtime / total_calls = 20000 / 5`. -/
theorem percall_denominators_cex :
    (get_func_calls_from_stats [(exFunc, exEntry)]).map CallStat.tottime = [10000]
  ∧ (get_func_calls_from_stats [(exFunc, exEntry)]).map CallStat.cumtime = [20000]
  ∧ (get_func_calls_from_stats [(exFunc, exEntry)]).map CallStat.percall = [2000]
  ∧ (get_func_calls_from_stats [(exFunc, exEntry)]).map CallStat.percall_cum = [10000]
  ∧ exEntry.cc = 2 ∧ exEntry.nc = 5
  ∧ (2000 : ℚ) ≠ 10000 / (2 : ℚ)
  ∧ (10000 : ℚ) ≠ 20000 / (5 : ℚ) := by
  refine ⟨?_, ?_, ?_, ?_, rfl, rfl, by norm_num, by norm_num⟩ <;>
    simp [get_func_calls_from_stats, mkStat, exEntry, exFunc] <;> norm_num

/-- C6 (amended): for every call record in the formatter's output, `percall`
equals `tottime` divided by the total-call count and is 0 whenever the
total-call count is 0, while `percall_cum` equals `cumtime` divided by the
primitive-call count and is 0 whenever the primitive-call count is 0; both
divisions are guarded, so a division error is never raised. -/
theorem percall_denominators (stats : List (FuncKey × StatEntry)) :
    ((get_func_calls_from_stats stats).map CallStat.percall
       = stats.map fun p => if p.2.nc = 0 then (0 : ℚ) else p.2.tt * 1000 / (p.2.nc : ℚ))
  ∧ ((get_func_calls_from_stats stats).map CallStat.percall_cum
       = stats.map fun p => if p.2.cc = 0 then (0 : ℚ) else p.2.ct * 1000 / (p.2.cc : ℚ))
  ∧ ((get_func_calls_from_stats stats).map CallStat.tottime = stats.map fun p => p.2.tt * 1000)
  ∧ ((get_func_calls_from_stats stats).map CallStat.cumtime
       = stats.map fun p => p.2.ct * 1000) := by
  refine ⟨?_, ?_, ?_, ?_⟩ <;>
  · induction stats with
    | nil => rfl
    | cons p ps ih =>
      simp only [get_func_calls_from_stats, List.map_cons] at ih ⊢
      rw [ih]
      by_cases h : p.2.nc = 0 <;> by_cases h2 : p.2.cc = 0 <;> simp [mkStat, h, h2]

/-- C7 counterexample: for the entry with primitive-call count 2 and
total-call count 5, the formatter renders `ncalls` as `"5/2"` — the total
count first — not as `"2/5"`. -/
theorem ncalls_format_cex :
    (get_func_calls_from_stats [(exFunc, exEntry)]).map CallStat.ncalls = [NCalls.str "5/2"]
  ∧ exEntry.cc = 2 ∧ exEntry.nc = 5
  ∧ NCalls.str "5/2" ≠ NCalls.str "2/5" := by
  refine ⟨?_, rfl, rfl, by decide⟩
  rfl

/-- C7 (amended): for every call record whose primitive-call count differs
from its total-call count, the formatter renders `ncalls` as the string
`"total/primitive"` (total count first); when the two counts are equal,
`ncalls` is the bare total count as an integer. -/
theorem ncalls_format (stats : List (FuncKey × StatEntry)) :
    (get_func_calls_from_stats stats).map CallStat.ncalls
      = stats.map fun p =>
          if p.2.cc = p.2.nc then NCalls.num p.2.nc
          else NCalls.str (toString p.2.nc ++ "/" ++ toString p.2.cc) := by
  induction stats with
  | nil => rfl
  | cons p ps ih =>
    simp only [get_func_calls_from_stats, List.map_cons] at ih ⊢
    rw [ih]
    by_cases h : p.2.cc = p.2.nc <;> simp [mkStat, h]

theorem add_log_handler_go (h : LogHandlerCfg) :
    ∀ (lgs : List LoggerState) (acc : FlaskProfilerState),
      List.foldl (add_log_handler_step h) acc lgs
        = { app :=
              { before_request_hooks := acc.app.before_request_hooks
                  ++ (List.replicate lgs.length h.before_request.toList).flatten
                after_request_hooks := acc.app.after_request_hooks
                  ++ (List.replicate lgs.length h.after_request.toList).flatten }
            loggers := acc.loggers
              ++ lgs.map (fun lg => { lg with handlers := lg.handlers ++ [h.handler] })
            profilers := acc.profilers
            log_handlers := acc.log_handlers } := by
  intro lgs
  induction lgs with
  | nil => intro acc; simp
  | cons lg lgs ih =>
    intro acc
    rw [List.foldl_cons, ih]
    simp [add_log_handler_step, List.replicate_succ]

/-- C10: `add_log_handler` attaches the injector's logging handler and
registers its request hooks once per logger previously remembered by
`add_profiler` (which appends an adapter's logger, when it has one, to
`self.loggers`): the app's hook lists are extended by one copy of each
present hook per logger, each logger gets the handler appended once, and
when the loggers list is empty the handler is recorded but attached to no
channel and no hook is registered. -/
theorem add_log_handler_per_logger (st : FlaskProfilerState) (h : LogHandlerCfg)
    (p : ProfilerCfg) :
    ((add_log_handler st h).app.before_request_hooks
       = st.app.before_request_hooks
         ++ (List.replicate st.loggers.length h.before_request.toList).flatten)
  ∧ ((add_log_handler st h).app.after_request_hooks
       = st.app.after_request_hooks
         ++ (List.replicate st.loggers.length h.after_request.toList).flatten)
  ∧ ((add_log_handler st h).loggers
       = st.loggers.map fun lg => { lg with handlers := lg.handlers ++ [h.handler] })
  ∧ ((add_log_handler st h).log_handlers = st.log_handlers ++ [h.handler])
  ∧ (add_log_handler { st with loggers := [] } h
       = { st with loggers := [], log_handlers := st.log_handlers ++ [h.handler] })
  ∧ ((add_profiler st p).loggers = st.loggers ++ p.logger.toList)
  ∧ ((add_profiler st p).app.after_request_hooks
       = st.app.after_request_hooks ++ p.after_request.toList) := by
  refine ⟨?_, ?_, ?_, ?_, ?_, rfl, rfl⟩ <;> simp [add_log_handler, add_log_handler_go]
